import Mathlib

/-!
Verification development for the chatwave-supabase chat client.

The definitions below are a shallow embedding of the TypeScript source:
  * `src/src/pages/Chat.tsx` (`sendMessageToChat`, `ChatInput` wiring)
  * `src/unnamed/part_000` (extended chat page: `handleRegularChat`,
    `generateLogo`, `sendLogoCompletionMessage`, `fetchMessages`)
  * `src/unnamed/part_001` (`ChatInput`: `handleSubmit`,
    `handleImageSelect`, button disabling)

JavaScript runtime values produced by `JSON.parse` are modelled by `JsVal`;
`undefined` (a missing property) is modelled by `Option JsVal = none`.
`JSON.parse` itself is a host primitive, so it enters the embedding as a
parameter `p : String → Option JsVal` (`none` models a parse that throws);
concrete instantiations used in witnesses agree with real `JSON.parse`
on the strings they are applied to.
-/

namespace Chatwave

/-- JavaScript values as produced by `JSON.parse`. Numbers are modelled as
integers; no claim below depends on fractional values. -/
inductive JsVal : Type where
  | vNull : JsVal
  | vBool : Bool → JsVal
  | vNum : Int → JsVal
  | vStr : String → JsVal
  | vArr : List JsVal → JsVal
  | vObj : List (String × JsVal) → JsVal

/-- JavaScript truthiness of a defined value: `null`, `false`, `0` and `""`
are falsy; every array and object is truthy. -/
def truthy : JsVal → Bool
  | .vNull => false
  | .vBool b => b
  | .vNum n => n != 0
  | .vStr s => s != ""
  | .vArr _ => true
  | .vObj _ => true

/-- Truthiness of a possibly-undefined value (`undefined` is falsy). -/
def truthyO : Option JsVal → Bool
  | none => false
  | some v => truthy v

/-- JavaScript property access `v.k`: the first binding of `k` on an object,
`undefined` (`none`) otherwise. -/
def getProp : JsVal → String → Option JsVal
  | .vObj fs, k => (fs.find? (fun f => f.1 = k)).map (·.2)
  | _, _ => none

/-- JavaScript `a || b`: `a` when truthy, otherwise `b` (which is returned
even when falsy). -/
def jsOr (a b : Option JsVal) : Option JsVal :=
  if truthyO a then a else b

/-- JavaScript `s.startsWith(pre)`, modelled on character lists. -/
def jsStartsWith (s pre : String) : Bool :=
  pre.toList.isPrefixOf s.toList

/-- JavaScript `s.endsWith(suf)`, modelled on character lists. -/
def jsEndsWith (s suf : String) : Bool :=
  suf.toList.isSuffixOf s.toList

/-- JavaScript `s.trim()`: strip leading and trailing whitespace. -/
def jsTrim (s : String) : String :=
  ⟨((s.toList.dropWhile Char.isWhitespace).reverse.dropWhile
      Char.isWhitespace).reverse⟩

/-- JavaScript `s.slice(n)` for `0 ≤ n`: drop the first `n` characters. -/
def jsDrop (s : String) (n : Nat) : String :=
  ⟨s.toList.drop n⟩

/-- JavaScript `s.slice(0, -1)`: drop the last character. -/
def jsDropLast (s : String) : String :=
  ⟨s.toList.dropLast⟩

/-- Split a character list at every occurrence of `c`, keeping empty
segments (the semantics of the `indexOf("\n")`/`slice` loop of the source). -/
def splitChar (c : Char) : List Char → List (List Char)
  | [] => [[]]
  | x :: xs =>
    let r := splitChar c xs
    if x = c then [] :: r
    else
      match r with
      | [] => [[x]]
      | y :: ys => (x :: y) :: ys

/-- Split a string at every `\n` (what the source's
`indexOf("\n")`/`slice` loop consumes line by line). -/
def splitNl (s : String) : List String :=
  (splitChar '\n' s.toList).map String.mk

/-- Rejoin segments with `\n` between them (inverse of `splitNl`, used to
model the text left in the buffer). -/
def joinNl (ss : List String) : String :=
  ⟨(List.intercalate ['\n'] (ss.map String.toList))⟩

/-- A host JSON parser: `none` models `JSON.parse` throwing. -/
abbrev Parser := String → Option JsVal

/-- The SSE-branch content chain of the stream loop
(`Chat.tsx` line 440, `part_000` line 1886):
`parsed.content || parsed.text || parsed.message || parsed.data || data`. -/
def sseContent (parsed : JsVal) (data : String) : Option JsVal :=
  jsOr (getProp parsed "content")
    (jsOr (getProp parsed "text")
      (jsOr (getProp parsed "message")
        (jsOr (getProp parsed "data") (some (.vStr data)))))

/-- The JSON-lines-branch content chain of the stream loop
(`Chat.tsx` line 455, `part_000` line 1901):
`parsed.content || parsed.text || parsed.message || parsed.data`. -/
def jsonLineContent (parsed : JsVal) : Option JsVal :=
  jsOr (getProp parsed "content")
    (jsOr (getProp parsed "text")
      (jsOr (getProp parsed "message") (getProp parsed "data")))

/-- Outcome of processing one complete line of the stream. -/
inductive StepRes : Type where
  | append : String → StepRes
  | skip : StepRes
  | brk : StepRes
deriving Repr, DecidableEq

/-- The body of the inner `while` over complete lines
(`Chat.tsx` lines 426-468, `part_000` lines 1872-1914): strip a trailing
`\r`, drop blank lines, then dispatch on SSE `data: ` prefix, JSON-lines
(`\x7b` or `[` start) or plain text. `brk` is the `break` on `[DONE]`. -/
def lineStep (p : Parser) (line0 : String) : StepRes :=
  let line := if jsEndsWith line0 "\r" then jsDropLast line0 else line0
  if jsTrim line = "" then .skip
  else if jsStartsWith line "data: " then
    let data := jsTrim (jsDrop line 6)
    if data = "[DONE]" then .brk
    else
      match p data with
      | some parsed =>
        match sseContent parsed data with
        | some (.vStr s) => .append s
        | _ => .skip
      | none => .append data
  else if jsStartsWith line "\x7b" || jsStartsWith line "[" then
    match p line with
    | some parsed =>
      match jsonLineContent parsed with
      | some (.vStr s) => .append s
      | _ => .skip
    | none => .skip
  else .append line

/-- One pass of the inner `while ((newlineIndex = textBuffer.indexOf("\n")) !== -1)`
loop over the already-complete lines: accumulates appended text, and on
`[DONE]` (`break`) returns the lines not yet consumed, which stay in the
buffer. -/
def runLines (p : Parser) (acc : String) : List String → String × List String
  | [] => (acc, [])
  | l :: rest =>
    match lineStep p l with
    | .brk => (acc, rest)
    | .append s => runLines p (acc ++ s) rest
    | .skip => runLines p acc rest

/-- Mutable state of the streaming loop: `assistantContent` and `textBuffer`. -/
structure StreamState : Type where
  acc : String
  buf : String
deriving Repr, DecidableEq

/-- Processing of one chunk delivered by `reader.read()`: the chunk is
appended to the buffer, complete lines (up to each `\n`) are processed in
order, and the remainder — plus any lines skipped by the `[DONE]` `break` —
stays in the buffer. -/
def processChunk (p : Parser) (st : StreamState) (chunk : String) : StreamState :=
  let parts := splitNl (st.buf ++ chunk)
  let r := runLines p st.acc parts.dropLast
  { acc := r.1, buf := joinNl (r.2 ++ [parts.getLastD ""]) }

/-- The whole streaming read loop (`Chat.tsx` lines 413-476, `part_000`
lines 1859-1922): fold over the delivered chunks, then flush a non-blank
trailing buffer into the accumulated content. -/
def processStream (p : Parser) (chunks : List String) : String :=
  let st := chunks.foldl (processChunk p) ⟨"", ""⟩
  if jsTrim st.buf = "" then st.acc else st.acc ++ st.buf

/-! ### Final-webhook JSON reply (`part_000` lines 1749-1812 and
`sendLogoCompletionMessage`, lines 1066-1138) -/

/-- The chain `data.text || data.content || data.message` of the final-webhook JSON
branch (`part_000` lines 1757 and 1072). -/
def finalTextChain (data : JsVal) : Option JsVal :=
  jsOr (getProp data "text")
    (jsOr (getProp data "content") (getProp data "message"))

/-- The value persisted as the assistant message content:
`(data.text || data.content || data.message || "") || "(sin texto)"`
(`part_000` lines 1757 and 1797). -/
def persistedAssistantText (data : JsVal) : JsVal :=
  match jsOr (jsOr (finalTextChain data) (some (.vStr "")))
      (some (.vStr "(sin texto)")) with
  | some v => v
  | none => .vNull

/-- One entry of a `data.images` array (`part_000` lines 1764-1772):
a string is pushed as is, otherwise `img.url` then `img.data` when truthy. -/
def imageEntry (img : JsVal) : List JsVal :=
  match img with
  | .vStr s => [.vStr s]
  | _ =>
    if truthyO (getProp img "url") then [(getProp img "url").getD .vNull]
    else if truthyO (getProp img "data") then [(getProp img "data").getD .vNull]
    else []

/-- Image extraction from a final-webhook JSON reply (`part_000`
lines 1760-1788): an `images` array first, then `image`
(string, `.url`, `.data`), then `image_url`, `logo_url`, `url`. -/
def responseImages (data : JsVal) : List JsVal :=
  match getProp data "images" with
  | some (.vArr xs) => xs.flatMap imageEntry
  | _ =>
    if truthyO (getProp data "image") then
      match (getProp data "image").getD .vNull with
      | .vStr s => [.vStr s]
      | v =>
        if truthyO (getProp v "url") then [(getProp v "url").getD .vNull]
        else if truthyO (getProp v "data") then [(getProp v "data").getD .vNull]
        else []
    else if truthyO (getProp data "image_url") then
      [(getProp data "image_url").getD .vNull]
    else if truthyO (getProp data "logo_url") then
      [(getProp data "logo_url").getD .vNull]
    else if truthyO (getProp data "url") then
      [(getProp data "url").getD .vNull]
    else []

/-! ### Logo-generator webhook reply (`part_000` lines 627-658) -/

/-- Result of consuming the logo-generator webhook reply. -/
inductive LogoResult : Type where
  /-- When `contentType.startsWith("image/")`: the body is consumed as a blob. -/
  | binaryBlob : LogoResult
  /-- An image reference extracted from the JSON body, with the `isBase64`
  flag computed by the source. -/
  | jsonImage : JsVal → Bool → LogoResult
  /-- The `throw new Error("Formato de respuesta no reconocido del webhook")` case. -/
  | formatError : LogoResult

/-- The test `u.startsWith("data:image")` on a JS value; the source only reaches
this call with a truthy `data.image`, and on a non-string it would throw —
no claim below exercises that corner. -/
def jsvStartsDataImage : JsVal → Bool
  | .vStr s => jsStartsWith s "data:image"
  | _ => false

/-- Extraction of the logo image from the JSON body of the logo webhook
(`part_000` lines 638-657): `image_url`, then `image` (setting `isBase64`
when it starts with `data:image`), then `logo_url`, then a string `data`
starting with `data:image`, then `url`; otherwise the format error. -/
def logoFromJson (data : JsVal) : LogoResult :=
  if truthyO (getProp data "image_url") then
    .jsonImage ((getProp data "image_url").getD .vNull) false
  else if truthyO (getProp data "image") then
    let u := (getProp data "image").getD .vNull
    .jsonImage u (jsvStartsDataImage u)
  else if truthyO (getProp data "logo_url") then
    .jsonImage ((getProp data "logo_url").getD .vNull) false
  else if (match getProp data "data" with
           | some (.vStr s) => truthy (.vStr s) && jsStartsWith s "data:image"
           | _ => false) then
    .jsonImage ((getProp data "data").getD .vNull) true
  else if truthyO (getProp data "url") then
    .jsonImage ((getProp data "url").getD .vNull) false
  else .formatError

/-- The logo webhook reply dispatch (`part_000` lines 627-658): an
`image/*` content type is consumed as a binary blob, anything else is
parsed as JSON and fed to `logoFromJson`. -/
def generateLogoResponse (contentType : Option String) (jsonBody : JsVal) :
    LogoResult :=
  if (match contentType with
      | some ct => jsStartsWith ct "image/"
      | none => false) then
    .binaryBlob
  else logoFromJson jsonBody

/-! ### Chat-webhook request body (`Chat.tsx` lines 341-389,
`part_000` lines 1686-1726) -/

/-- An attached file as the browser hands it over: its name, MIME type and
the base64 data URL produced by `FileReader.readAsDataURL`. -/
structure AttachedFile : Type where
  name : String
  type : String
  dataUrl : String

/-- One entry of the `images` array of the request body
(`Chat.tsx` lines 373-379). -/
structure ImagePayload : Type where
  data : String
  name : String
  type : String

/-- The request body POSTed to the chat webhook (`Chat.tsx` lines 357-381):
always `chat_id` and `prompt`; `images` is set only when at least one
image was attached. -/
structure RequestBody : Type where
  chat_id : String
  prompt : String
  images : Option (List ImagePayload)

/-- The prompt `content || (images.length > 0 ? "Describe esta imagen" : "")`
(`Chat.tsx` line 342). -/
def promptOf (content : String) (images : List AttachedFile) : String :=
  if content ≠ "" then content
  else if images.length > 0 then "Describe esta imagen" else ""

/-- Building the request body (`Chat.tsx` lines 357-381). -/
def buildRequestBody (chatId content : String) (images : List AttachedFile) :
    RequestBody :=
  let imgs : Option (List ImagePayload) :=
    if images.length > 0 then
      some (images.map (fun f =>
        { data := f.dataUrl, name := f.name, type := f.type }))
    else none
  { chat_id := chatId, prompt := promptOf content images, images := imgs }

/-- Serialization (`JSON.stringify`) of the request body as a JS object: the
field list, in declaration order, with `images` present only when set. -/
def requestBodyFields (b : RequestBody) : List (String × JsVal) :=
  [("chat_id", .vStr b.chat_id), ("prompt", .vStr b.prompt)] ++
    (match b.images with
     | some l =>
       [("images", .vArr (l.map (fun i =>
          .vObj [("data", .vStr i.data), ("name", .vStr i.name),
                 ("type", .vStr i.type)])))]
     | none => [])

/-! ### The send pipeline and its error handling
(`Chat.tsx` lines 289-514) -/

/-- JS `String(v)` as used by `new Error(v).message`; recursive array
stringification is abstracted to `""` (no claim evaluates it). -/
def jsString : JsVal → String
  | .vStr s => s
  | .vNum n => toString n
  | .vBool true => "true"
  | .vBool false => "false"
  | .vNull => "null"
  | .vArr _ => ""
  | .vObj _ => "[object Object]"

/-- The message of the error thrown on a non-ok webhook status
(`Chat.tsx` lines 391-400): try `JSON.parse(errorText)` and take
`errorData.error || errorData.message || "Error al conectar con n8n"`;
when parsing throws, `errorText || "Error al conectar con n8n"`. -/
def webhookErrorMessage (p : Parser) (errorText : String) : String :=
  match p errorText with
  | some ed =>
    match jsOr (getProp ed "error")
        (jsOr (getProp ed "message")
          (some (.vStr "Error al conectar con n8n"))) with
    | some v => jsString v
    | none => "Error al conectar con n8n"
  | none => if errorText = "" then "Error al conectar con n8n" else errorText

/-- The webhook HTTP response as the code observes it. -/
structure FetchResp : Type where
  ok : Bool
  errorText : String
  hasStream : Bool
  chunks : List String

/-- Outcomes of the external calls made inside the `try` block of
`sendMessageToChat`; `Except.error` carries the message of the value the
corresponding `await` throws. -/
structure SendEnv : Type where
  userInsert : Except String Unit
  webhookUrl : Option String
  fetchResult : Except String FetchResp
  assistantInsert : Except String Unit

/-- The `try` block of `sendMessageToChat` (`Chat.tsx` lines 293-502),
restricted to its fallible steps in source order: user-message insert,
webhook-URL check, fetch, non-ok status, missing stream body, streaming,
assistant-message insert. Returns the accumulated assistant content. -/
def sendBody (p : Parser) (env : SendEnv) : Except String String :=
  match env.userInsert with
  | .error e => .error e
  | .ok _ =>
    match env.webhookUrl with
    | none =>
      .error "VITE_N8N_WEBHOOK_URL no está configurada en las variables de entorno"
    | some url =>
      if url = "" then
        .error "VITE_N8N_WEBHOOK_URL no está configurada en las variables de entorno"
      else
        match env.fetchResult with
        | .error e => .error e
        | .ok r =>
          if !r.ok then .error (webhookErrorMessage p r.errorText)
          else if !r.hasStream then
            .error "No se pudo obtener el stream de respuesta"
          else
            match env.assistantInsert with
            | .error e => .error e
            | .ok _ => .ok (processStream p r.chunks)

/-- A toast notification (`useToast`). -/
structure Toast : Type where
  title : String
  description : String
  destructive : Bool

/-- What `sendMessageToChat` leaves behind: the persisted assistant content
on success, the toasts raised, and the loading flag after `finally`.
The function is total: the `catch` block swallows every thrown value, so no
exception escapes to the caller. -/
structure SendOutcome : Type where
  result : Option String
  toasts : List Toast
  isLoading : Bool

/-- The function `sendMessageToChat` (`Chat.tsx` lines 289-514): run the `try` body;
`catch` turns any thrown error into a destructive toast
(`Chat.tsx` lines 504-510); `finally` resets the loading flag. -/
def sendMessageToChat (p : Parser) (env : SendEnv) : SendOutcome :=
  match sendBody p env with
  | .ok c => { result := some c, toasts := [], isLoading := false }
  | .error e =>
    { result := none, toasts := [⟨"Error", e, true⟩], isLoading := false }

/-! ### The chat input (`part_001`) -/

/-- The state `ChatInput` closes over, plus the `disabled`/`isLoading`
props. -/
structure InputState : Type where
  message : String
  images : List AttachedFile
  disabled : Bool
  isLoading : Bool

/-- The early-return guard of `handleSubmit` (`part_001` line 21):
`(!message.trim() && images.length === 0) || disabled || isLoading`. -/
def submitGuard (st : InputState) : Bool :=
  (jsTrim st.message = "" && st.images.isEmpty) || st.disabled || st.isLoading

/-- The handler `handleSubmit` (`part_001` lines 19-27): under the guard nothing
happens; otherwise `onSend(message, images)` fires and message and images
are cleared. The first component is the `onSend` invocation, if any. -/
def handleSubmit (st : InputState) :
    Option (String × List AttachedFile) × InputState :=
  if submitGuard st then (none, st)
  else (some (st.message, st.images),
    { message := "", images := [], disabled := st.disabled,
      isLoading := st.isLoading })

/-- The `disabled` prop of the submit button (`part_001` line 122). -/
def submitButtonDisabled (st : InputState) : Bool :=
  (jsTrim st.message = "" && st.images.isEmpty) || st.disabled || st.isLoading

/-- The `disabled` prop of the attach button (`part_001` line 100):
`disabled || isLoading || images.length >= 4`. -/
def attachButtonDisabled (st : InputState) : Bool :=
  st.disabled || st.isLoading || decide (st.images.length ≥ 4)

/-- The handler `handleImageSelect` (`part_001` lines 36-55): an empty selection is
ignored; otherwise the combined list is truncated to its first 4 files. -/
def handleImageSelect (images files : List AttachedFile) :
    List AttachedFile :=
  if files.length = 0 then images else (images ++ files).take 4

/-- The handler `removeImage` (`part_001` lines 57-60):
`images.filter((_, i) => i !== index)`. -/
def removeImage (images : List AttachedFile) (idx : Nat) :
    List AttachedFile :=
  ((images.enum.filter (fun e => e.1 ≠ idx)).map (fun e => e.2))

/-! ### UI transition system for the loading flag and the image list.
Events are the handlers the UI can fire; `complete` is the `finally`
block of `sendMessageToChat` finishing an in-flight fetch. State updates
are modelled as taking effect when the handler runs. -/

/-- Events the chat UI can fire. -/
inductive ChatEvent : Type where
  | setMessage : String → ChatEvent
  | selectFiles : List AttachedFile → ChatEvent
  | removeAt : Nat → ChatEvent
  | submit : ChatEvent
  | complete : ChatEvent

/-- The UI state plus the number of webhook fetches currently in flight. -/
structure UiSys : Type where
  input : InputState
  inFlight : Nat

/-- Initial UI state (`part_001` lines 14-15, `Chat.tsx` line 40):
empty message, no images, `disabled=\x7bfalse\x7d`, not loading. -/
def initSys : UiSys :=
  { input := { message := "", images := [], disabled := false,
               isLoading := false },
    inFlight := 0 }

/-- One UI step: typing, selecting files, removing an image, submitting
(a successful submit invokes `onSend`, which synchronously sets the
loading flag and starts a fetch), or an in-flight fetch completing
(the `finally` resets the flag). -/
def stepEv (s : UiSys) : ChatEvent → UiSys
  | .setMessage m =>
    { s with input := { s.input with message := m } }
  | .selectFiles fs =>
    { s with input :=
        { s.input with images := handleImageSelect s.input.images fs } }
  | .removeAt i =>
    { s with input := { s.input with images := removeImage s.input.images i } }
  | .submit =>
    match handleSubmit s.input with
    | (none, _) => s
    | (some _, st) =>
      { input := { st with isLoading := true }, inFlight := s.inFlight + 1 }
  | .complete =>
    { input := { s.input with isLoading := false }, inFlight := s.inFlight - 1 }

/-- Running a sequence of UI events from the initial state. -/
def runEvents (evs : List ChatEvent) : UiSys :=
  evs.foldl stepEv initSys

/-! ### Stored image paths and their display (`part_000` lines 108-118
and 747-763) -/

/-- JS `s.replace(pat, rep)` with a string pattern: replace the first
occurrence only. -/
def replaceOnceL (pat rep : List Char) : List Char → List Char
  | [] => if pat.isPrefixOf ([] : List Char) then rep else []
  | c :: cs =>
    if pat.isPrefixOf (c :: cs) then rep ++ (c :: cs).drop pat.length
    else c :: replaceOnceL pat rep cs

/-- JS `s.replace(pat, rep)` on strings (first occurrence only). -/
def jsReplaceFirst (s pat rep : String) : String :=
  ⟨replaceOnceL pat.toList rep.toList s.toList⟩

/-- The `file_path` stored for an externally hosted logo URL
(`part_000` line 756): `` `external:$\x7bimageUrl\x7d` ``. -/
def storedExternalPath (u : String) : String :=
  "external:" ++ u

/-- How `fetchMessages` turns a stored `file_path` into the displayed URL
(`part_000` lines 108-118): strip the `external:` prefix, otherwise ask
storage for the public URL. `getPublicUrl` abstracts the storage lookup. -/
def displayedImageUrl (getPublicUrl : String → String)
    (file_path : String) : String :=
  if jsStartsWith file_path "external:" then
    jsReplaceFirst file_path "external:" ""
  else getPublicUrl file_path

/-! ### Spec-side readings and concrete parser instances -/

/-- A concrete stand-in for `JSON.parse`, agreeing with it on the strings
the witnesses and counterexamples below feed to the stream parser; every
other string is treated as failing to parse. -/
def parseFx : Parser := fun s =>
  if s = "\x7b\"data\":\"x\"\x7d" then some (.vObj [("data", .vStr "x")])
  else if s = "\x7b\"content\":\"hi\"\x7d" then
    some (.vObj [("content", .vStr "hi")])
  else none

/-- First entry of a list of JS values that is a nonempty string. -/
def firstNonEmptyString : List (Option JsVal) → Option String
  | [] => none
  | some (.vStr s) :: rest =>
    if s = "" then firstNonEmptyString rest else some s
  | _ :: rest => firstNonEmptyString rest

/-- The spec's description of the persisted final-webhook text: the first
of the keys `text`, `content`, `message` holding a nonempty string, and
the placeholder `(sin texto)` when all are absent or empty. -/
def specFinalText (data : JsVal) : String :=
  match firstNonEmptyString
      [getProp data "text", getProp data "content", getProp data "message"] with
  | some s => s
  | none => "(sin texto)"

/-- The spec's description of the final-webhook image extraction, written
from the claim's words: check, in order, an `images` array (string entries,
or objects with `url` or `data`), then `image`, `image_url`, `logo_url`,
`url`. -/
def specImages (data : JsVal) : List JsVal :=
  match getProp data "images" with
  | some (.vArr xs) =>
    xs.flatMap (fun img =>
      match img with
      | .vStr s => [.vStr s]
      | _ =>
        if truthyO (getProp img "url") then [(getProp img "url").getD .vNull]
        else if truthyO (getProp img "data") then
          [(getProp img "data").getD .vNull]
        else [])
  | _ =>
    if truthyO (getProp data "image") then
      match (getProp data "image").getD .vNull with
      | .vStr s => [.vStr s]
      | v =>
        if truthyO (getProp v "url") then [(getProp v "url").getD .vNull]
        else if truthyO (getProp v "data") then
          [(getProp v "data").getD .vNull]
        else []
    else if truthyO (getProp data "image_url") then
      [(getProp data "image_url").getD .vNull]
    else if truthyO (getProp data "logo_url") then
      [(getProp data "logo_url").getD .vNull]
    else if truthyO (getProp data "url") then
      [(getProp data "url").getD .vNull]
    else []

/-- Invariant of the UI transition system: never more than one webhook
fetch in flight, and one is in flight exactly while the loading flag is
set. -/
def uiInv (s : UiSys) : Prop :=
  s.inFlight ≤ 1 ∧ (s.inFlight = 1 ↔ s.input.isLoading = true)

/-! ## Theorems -/

/-- C1, counterexample. The claim says that once a `data: [DONE]` line is
seen, no later line of the stream contributes to the accumulated content —
so on this stream, whose every other line follows the sentinel, the
accumulated content would be `""`. In fact both the line buffered behind
the sentinel in the same chunk (`skipped`) and the line of the next chunk
(`later`) are appended: the `break` only leaves the inner line loop. -/
theorem c1_counterexample :
    processStream (fun _ => none) ["data: [DONE]\nskipped\n", "later\n"] =
      "skippedlater" ∧ "skippedlater" ≠ "" := by
  exact ⟨rfl, by decide⟩

/-- C1, amended: encountering `data: [DONE]` terminates the current
line-processing pass immediately — the accumulated content is left as it
was and no line of the same pass after the sentinel is consumed in that
pass; those lines are deferred (and, with later chunks and the trailing
buffer flush, can still contribute). -/
theorem c1_done_stops_current_pass (p : Parser) (acc : String)
    (rest : List String) :
    runLines p acc ("data: [DONE]" :: rest) = (acc, rest) := by
  have h : lineStep p "data: [DONE]" = .brk := rfl
  simp [runLines, h]

/-- C2, counterexample. A JSON-lines object with none of the keys `text`,
`content`, `message` still gets text appended: the source's chain also
reads the key `data`. -/
theorem c2_counterexample :
    processStream parseFx ["\x7b\"data\":\"x\"\x7d\n"] = "x" ∧
    getProp (.vObj [("data", .vStr "x")]) "text" = none ∧
    getProp (.vObj [("data", .vStr "x")]) "content" = none ∧
    getProp (.vObj [("data", .vStr "x")]) "message" = none :=
  ⟨rfl, rfl, rfl, rfl⟩

/-- C2, amended: for a streamed line whose SSE payload or JSON-lines body
parses as JSON, the appended text is the first truthy value of the keys
`content`, `text`, `message`, `data` (in that order); an SSE line falls
back to its raw payload when all four are falsy; text is appended only
when the resulting value is a string. -/
theorem c2_extraction_chain (p : Parser) (line : String) (v : JsVal)
    (hr : jsEndsWith line "\r" = false) (ht : jsTrim line ≠ "") :
    (jsStartsWith line "data: " = true →
      jsTrim (jsDrop line 6) ≠ "[DONE]" →
      p (jsTrim (jsDrop line 6)) = some v →
      lineStep p line =
        (match sseContent v (jsTrim (jsDrop line 6)) with
         | some (.vStr s) => .append s
         | _ => .skip)) ∧
    (jsStartsWith line "data: " = false →
      (jsStartsWith line "\x7b" || jsStartsWith line "[") = true →
      p line = some v →
      lineStep p line =
        (match jsonLineContent v with
         | some (.vStr s) => .append s
         | _ => .skip)) := by
  constructor
  · intro hd hnd hp
    simp [lineStep, hr, ht, hd, hnd, hp]
  · intro hd hjson hp
    simp [lineStep, hr, ht, hd, hjson, hp]

/-- C2, witness for the amended theorem at a concrete SSE line and a
concrete JSON-lines line. -/
theorem c2_extraction_chain_witness :
    lineStep parseFx "data: \x7b\"content\":\"hi\"\x7d" = .append "hi" ∧
    lineStep parseFx "\x7b\"content\":\"hi\"\x7d" = .append "hi" :=
  ⟨(c2_extraction_chain parseFx "data: \x7b\"content\":\"hi\"\x7d"
      (.vObj [("content", .vStr "hi")]) rfl (by decide)).1 rfl (by decide) rfl,
   (c2_extraction_chain parseFx "\x7b\"content\":\"hi\"\x7d"
      (.vObj [("content", .vStr "hi")]) rfl (by decide)).2 rfl rfl rfl⟩

/-- C3, counterexample. A logo-webhook JSON reply carrying only an
`images` array — a key the claim lists as accepted — is rejected with the
recognised-format error: `generateLogo` has no `images`-array branch. -/
theorem c3_counterexample :
    logoFromJson (.vObj [("images", .vArr [.vStr "https://x.example/l.png"])]) =
      .formatError ∧
    truthyO (getProp
      (.vObj [("images", .vArr [.vStr "https://x.example/l.png"])]) "images") =
      true :=
  ⟨rfl, rfl⟩

/-- C3, amended: an `image/*` content type is consumed as a binary image;
otherwise the JSON body is inspected with precedence `image_url`, `image`
(base64 flag from a `data:image` prefix), `logo_url`, a string `data` key
starting with `data:image`, `url` — there is no `images`-array handling —
and the recognised-format error is raised exactly when none of those five
keys yields an image. -/
theorem c3_logo_extraction (ct : Option String) (body : JsVal) :
    ((match ct with
      | some c => jsStartsWith c "image/"
      | none => false) = true → generateLogoResponse ct body = .binaryBlob) ∧
    ((match ct with
      | some c => jsStartsWith c "image/"
      | none => false) = false →
      generateLogoResponse ct body = logoFromJson body) ∧
    (logoFromJson body = .formatError ↔
      truthyO (getProp body "image_url") = false ∧
      truthyO (getProp body "image") = false ∧
      truthyO (getProp body "logo_url") = false ∧
      (match getProp body "data" with
       | some (.vStr s) => truthy (.vStr s) && jsStartsWith s "data:image"
       | _ => false) = false ∧
      truthyO (getProp body "url") = false) := by
  refine ⟨fun h => by simp [generateLogoResponse, h],
    fun h => by simp [generateLogoResponse, h], ?_⟩
  unfold logoFromJson
  split_ifs with h1 h2 h3 h4 h5 <;> simp_all

/-- C3, witness for the amended theorem: an `image/png` reply is consumed
as binary, and a reply with only a `logo_url` key is extracted from it. -/
theorem c3_logo_extraction_witness :
    generateLogoResponse (some "image/png")
      (.vObj [("logo_url", .vStr "https://x.example/l.png")]) = .binaryBlob ∧
    generateLogoResponse (some "application/json")
      (.vObj [("logo_url", .vStr "https://x.example/l.png")]) =
      .jsonImage (.vStr "https://x.example/l.png") false :=
  ⟨(c3_logo_extraction (some "image/png")
      (.vObj [("logo_url", .vStr "https://x.example/l.png")])).1 rfl,
   ((c3_logo_extraction (some "application/json")
      (.vObj [("logo_url", .vStr "https://x.example/l.png")])).2.1 rfl).trans
     rfl⟩

/-- C4: for a final-webhook JSON reply whose `text`, `content`, `message`
keys are absent or strings, the persisted assistant text is the first
nonempty one of them, with the `(sin texto)` placeholder when all are
absent or empty; and the attached images are extracted exactly as the
spec describes: an `images` array (string entries, or objects with `url`
or `data`), then `image`, `image_url`, `logo_url`, `url`. -/
theorem c4_final_reply_shape (data : JsVal)
    (ht : getProp data "text" = none ∨
      ∃ s, getProp data "text" = some (.vStr s))
    (hc : getProp data "content" = none ∨
      ∃ s, getProp data "content" = some (.vStr s))
    (hm : getProp data "message" = none ∨
      ∃ s, getProp data "message" = some (.vStr s)) :
    persistedAssistantText data = .vStr (specFinalText data) ∧
    responseImages data = specImages data := by
  refine ⟨?_, rfl⟩
  rcases ht with ht | ⟨s1, ht⟩ <;> rcases hc with hc | ⟨s2, hc⟩ <;>
    rcases hm with hm | ⟨s3, hm⟩ <;>
    simp only [persistedAssistantText, specFinalText, firstNonEmptyString,
      finalTextChain, jsOr, truthyO, truthy, ht, hc, hm] <;>
    split_ifs <;> simp_all

/-- C4, witness at a concrete reply carrying `message` text and an
`images` array with one string and one `url` object. -/
theorem c4_final_reply_shape_witness :
    persistedAssistantText
      (.vObj [("message", .vStr "listo"),
              ("images", .vArr [.vStr "https://a/1.png",
                .vObj [("url", .vStr "https://a/2.png")]])]) =
      .vStr "listo" ∧
    responseImages
      (.vObj [("message", .vStr "listo"),
              ("images", .vArr [.vStr "https://a/1.png",
                .vObj [("url", .vStr "https://a/2.png")]])]) =
      [.vStr "https://a/1.png", .vStr "https://a/2.png"] := by
  have h := c4_final_reply_shape
    (.vObj [("message", .vStr "listo"),
            ("images", .vArr [.vStr "https://a/1.png",
              .vObj [("url", .vStr "https://a/2.png")]])])
    (Or.inl rfl) (Or.inl rfl) (Or.inr ⟨"listo", rfl⟩)
  exact ⟨h.1.trans rfl, h.2.trans rfl⟩

/-- C5: a streamed line that opens like JSON (`\x7b` or `[`) but fails to
parse is silently skipped and leaves the accumulated content unchanged,
while an SSE `data: ` payload that fails to parse is appended raw as
best-effort text. -/
theorem c5_parse_failure_fallback (p : Parser) (line : String)
    (hr : jsEndsWith line "\r" = false) (ht : jsTrim line ≠ "") :
    (jsStartsWith line "data: " = false →
      (jsStartsWith line "\x7b" || jsStartsWith line "[") = true →
      p line = none →
      lineStep p line = .skip) ∧
    (jsStartsWith line "data: " = true →
      jsTrim (jsDrop line 6) ≠ "[DONE]" →
      p (jsTrim (jsDrop line 6)) = none →
      lineStep p line = .append (jsTrim (jsDrop line 6))) ∧
    (∀ (acc : String) (rest : List String),
      lineStep p line = .skip →
      runLines p acc (line :: rest) = runLines p acc rest) := by
  refine ⟨fun hd hjson hp => by simp [lineStep, hr, ht, hd, hjson, hp],
    fun hd hnd hp => by simp [lineStep, hr, ht, hd, hnd, hp],
    fun acc rest hskip => by simp [runLines, hskip]⟩

/-- C5, witness: a malformed JSON line is skipped, a malformed SSE payload
is appended raw, and the skipped line leaves the accumulator pass
unchanged. -/
theorem c5_parse_failure_fallback_witness :
    lineStep parseFx "\x7binvalid" = .skip ∧
    lineStep parseFx "data: hola" = .append "hola" ∧
    runLines parseFx "acc" ["\x7binvalid"] = runLines parseFx "acc" [] :=
  ⟨(c5_parse_failure_fallback parseFx "\x7binvalid" rfl (by decide)).1
      rfl rfl rfl,
   (c5_parse_failure_fallback parseFx "data: hola" rfl (by decide)).2.1
      rfl (by decide) rfl,
   (c5_parse_failure_fallback parseFx "\x7binvalid" rfl (by decide)).2.2
      "acc" []
      ((c5_parse_failure_fallback parseFx "\x7binvalid" rfl (by decide)).1
        rfl rfl rfl)⟩

/-- C6: the chat-webhook request body serializes to exactly the fields
`chat_id` and `prompt`, plus an `images` field if and only if at least one
image is attached, each entry carrying exactly `data` (the base64 data
URL), `name` and `type`. -/
theorem c6_request_body (chatId content : String)
    (images : List AttachedFile) :
    requestBodyFields (buildRequestBody chatId content images) =
      [("chat_id", .vStr chatId),
       ("prompt", .vStr (promptOf content images))] ++
      (if images.length > 0 then
        [("images", .vArr (images.map (fun f =>
          .vObj [("data", .vStr f.dataUrl), ("name", .vStr f.name),
                 ("type", .vStr f.type)])))]
       else []) ∧
    (buildRequestBody chatId content images).images =
      (if images.length > 0 then
        some (images.map (fun f => ⟨f.dataUrl, f.name, f.type⟩))
       else none) := by
  by_cases h : images.length > 0 <;>
    simp [buildRequestBody, requestBodyFields, h]

/-- C7: whatever the outcome of the fallible steps, `sendMessageToChat`
returns (no exception escapes — the function is total), the loading flag
is reset by `finally`, and a thrown error surfaces as exactly one
destructive toast carrying its message. -/
theorem c7_errors_caught (p : Parser) (env : SendEnv) :
    (sendMessageToChat p env).isLoading = false ∧
    (∀ e, sendBody p env = .error e →
      (sendMessageToChat p env).toasts = [⟨"Error", e, true⟩] ∧
      (sendMessageToChat p env).result = none) ∧
    (∀ c, sendBody p env = .ok c →
      (sendMessageToChat p env).toasts = [] ∧
      (sendMessageToChat p env).result = some c) := by
  refine ⟨?_, fun e he => ?_, fun c hc => ?_⟩
  · cases h : sendBody p env <;> simp [sendMessageToChat, h]
  · simp [sendMessageToChat, he]
  · simp [sendMessageToChat, hc]

/-- C7, witness: a failing user-message insert ends with the loading flag
reset and one destructive toast, nothing thrown. -/
theorem c7_errors_caught_witness :
    (sendMessageToChat parseFx
      ⟨.error "db", some "u", .ok ⟨true, "", true, []⟩, .ok ()⟩).isLoading =
      false ∧
    (sendMessageToChat parseFx
      ⟨.error "db", some "u", .ok ⟨true, "", true, []⟩, .ok ()⟩).toasts =
      [⟨"Error", "db", true⟩] :=
  ⟨(c7_errors_caught parseFx
      ⟨.error "db", some "u", .ok ⟨true, "", true, []⟩, .ok ()⟩).1,
   ((c7_errors_caught parseFx
      ⟨.error "db", some "u", .ok ⟨true, "", true, []⟩, .ok ()⟩).2.1
      "db" rfl).1⟩

/-- The UI invariant holds initially. -/
theorem uiInv_init : uiInv initSys := by
  simp [uiInv, initSys]

/-- Every UI event preserves the invariant. -/
theorem uiInv_step (s : UiSys) (e : ChatEvent) (h : uiInv s) :
    uiInv (stepEv s e) := by
  obtain ⟨h1, h2⟩ := h
  cases e with
  | setMessage m => exact ⟨h1, h2⟩
  | selectFiles fs => exact ⟨h1, h2⟩
  | removeAt i => exact ⟨h1, h2⟩
  | submit =>
    by_cases g : submitGuard s.input
    · simp [stepEv, handleSubmit, g]
      exact ⟨h1, h2⟩
    · have g' : submitGuard s.input = false := by
        revert g
        cases submitGuard s.input <;> simp
      have hload : s.input.isLoading = false := by
        have hg := g'
        simp only [submitGuard, Bool.or_eq_false_iff] at hg
        exact hg.2
      have hzero : s.inFlight = 0 := by
        have hne : s.inFlight ≠ 1 := fun hh => by
          simp [h2.mp hh] at hload
        omega
      simp [stepEv, handleSubmit, g', uiInv, hzero]
  | complete =>
    refine ⟨?_, ?_⟩
    · simp [stepEv]
      omega
    · simp [stepEv]
      omega

/-- The UI invariant holds after any sequence of events. -/
theorem uiInv_run (evs : List ChatEvent) : uiInv (runEvents evs) := by
  suffices h : ∀ (l : List ChatEvent) (s : UiSys), uiInv s →
      uiInv (l.foldl stepEv s) by
    exact h evs initSys uiInv_init
  intro l
  induction l with
  | nil => exact fun s hs => hs
  | cons e l ih => exact fun s hs => ih (stepEv s e) (uiInv_step s e hs)

/-- C8: while the loading flag is set, the submit handler returns without
invoking `onSend` and the submit button is disabled; consequently, over
every sequence of UI events, at most one webhook fetch is ever in
flight. -/
theorem c8_single_inflight :
    (∀ st : InputState, st.isLoading = true →
      handleSubmit st = (none, st) ∧ submitButtonDisabled st = true) ∧
    (∀ evs : List ChatEvent, (runEvents evs).inFlight ≤ 1) := by
  constructor
  · intro st h
    constructor
    · simp [handleSubmit, submitGuard, h]
    · simp [submitButtonDisabled, h]
  · intro evs
    exact (uiInv_run evs).1

/-- C8, witness: with the loading flag set, submitting a nonempty message
dispatches nothing and the button is disabled; a double submit leaves at
most one fetch in flight. -/
theorem c8_single_inflight_witness :
    (handleSubmit ⟨"hola", [], false, true⟩ =
      (none, ⟨"hola", [], false, true⟩) ∧
     submitButtonDisabled ⟨"hola", [], false, true⟩ = true) ∧
    (runEvents [.setMessage "hola", .submit, .submit]).inFlight ≤ 1 :=
  ⟨c8_single_inflight.1 ⟨"hola", [], false, true⟩ rfl,
   c8_single_inflight.2 [.setMessage "hola", .submit, .submit]⟩

/-- Every UI event keeps the attached-image list at 4 entries or fewer. -/
theorem imagesBound_step (s : UiSys) (e : ChatEvent)
    (h : s.input.images.length ≤ 4) :
    (stepEv s e).input.images.length ≤ 4 := by
  cases e with
  | setMessage m => exact h
  | selectFiles fs =>
    simp only [stepEv, handleImageSelect]
    split_ifs
    · exact h
    · simp [List.length_take]
  | removeAt i =>
    simp only [stepEv, removeImage, List.length_map]
    calc (s.input.images.enum.filter (fun e => e.1 ≠ i)).length
        ≤ s.input.images.enum.length := List.length_filter_le _ _
      _ = s.input.images.length := List.enum_length
      _ ≤ 4 := h
  | submit =>
    by_cases g : submitGuard s.input
    · simpa [stepEv, handleSubmit, g] using h
    · simp [stepEv, handleSubmit, g]
  | complete => exact h

/-- C9: over every sequence of UI events the attached-image list never
exceeds 4 entries; a non-empty selection truncates the combined list to
its first 4 files; and the attach button is disabled once 4 images are
held. -/
theorem c9_max_four_images :
    (∀ evs : List ChatEvent, (runEvents evs).input.images.length ≤ 4) ∧
    (∀ (imgs files : List AttachedFile), files ≠ [] →
      handleImageSelect imgs files = (imgs ++ files).take 4) ∧
    (∀ st : InputState, 4 ≤ st.images.length →
      attachButtonDisabled st = true) := by
  refine ⟨fun evs => ?_, fun imgs files hf => ?_, fun st h => ?_⟩
  · suffices hfold : ∀ (l : List ChatEvent) (s : UiSys),
        s.input.images.length ≤ 4 → (l.foldl stepEv s).input.images.length ≤ 4 by
      exact hfold evs initSys (by simp [initSys])
    intro l
    induction l with
    | nil => exact fun s hs => hs
    | cons e l ih => exact fun s hs => ih (stepEv s e) (imagesBound_step s e hs)
  · have : files.length ≠ 0 := by
      simpa [List.length_eq_zero] using hf
    simp [handleImageSelect, this]
  · simp [attachButtonDisabled, h]

/-- C9, witness: selecting one file on an empty list keeps the first 4 of
the combined list, and four held images disable the attach button. -/
theorem c9_max_four_images_witness :
    handleImageSelect [] [⟨"a.png", "image/png", "data:image/png;base64,Zg"⟩] =
      (([] : List AttachedFile) ++
        [(⟨"a.png", "image/png", "data:image/png;base64,Zg"⟩ :
          AttachedFile)]).take 4 ∧
    attachButtonDisabled
      ⟨"", [⟨"a", "t", "d"⟩, ⟨"b", "t", "d"⟩, ⟨"c", "t", "d"⟩,
            ⟨"d", "t", "d"⟩], false, false⟩ = true :=
  ⟨c9_max_four_images.2.1 ([] : List AttachedFile)
      [(⟨"a.png", "image/png", "data:image/png;base64,Zg"⟩ : AttachedFile)]
      (by simp),
   c9_max_four_images.2.2
      (⟨"", [⟨"a", "t", "d"⟩, ⟨"b", "t", "d"⟩, ⟨"c", "t", "d"⟩,
            ⟨"d", "t", "d"⟩], false, false⟩ : InputState) (by simp)⟩

/-- A list is a `isPrefixOf` of itself followed by anything. -/
theorem isPrefixOf_append_self (l r : List Char) :
    l.isPrefixOf (l ++ r) = true := by
  rw [List.isPrefixOf_iff_prefix]
  exact List.prefix_append l r

/-- Replacing the first occurrence of a pattern that sits at the front of
the list removes exactly that front. -/
theorem replaceOnceL_front (pat rep l : List Char)
    (h : pat.isPrefixOf l = true) :
    replaceOnceL pat rep l = rep ++ l.drop pat.length := by
  cases l with
  | nil =>
    have : pat = [] := by
      simpa [List.isPrefixOf_iff_prefix] using h
    simp [replaceOnceL, this]
  | cons c cs => simp [replaceOnceL, h]

/-- C10: an external image URL `u` stored as `external:u` is displayed as
exactly `u` by `fetchMessages`, while any `file_path` without the
`external:` prefix is resolved through the storage public-URL lookup. -/
theorem c10_external_url_roundtrip (g : String → String) (u q : String) :
    displayedImageUrl g (storedExternalPath u) = u ∧
    (jsStartsWith q "external:" = false → displayedImageUrl g q = g q) := by
  constructor
  · have hpre : ("external:".toList).isPrefixOf
        ((storedExternalPath u).toList) = true := by
      show ("external:".toList).isPrefixOf ("external:".toList ++ u.toList) = true
      exact isPrefixOf_append_self _ _
    have hstarts : jsStartsWith (storedExternalPath u) "external:" = true := hpre
    simp only [displayedImageUrl, hstarts, if_true]
    show String.mk
      (replaceOnceL "external:".toList [] ((storedExternalPath u).toList)) = u
    rw [replaceOnceL_front _ _ _ hpre]
    show String.mk (("external:".toList ++ u.toList).drop
      ("external:".toList.length)) = u
    rw [List.drop_left]
    rfl
  · intro h
    simp [displayedImageUrl, h]

/-- C10, witness: the logo path `external:https://cdn.example/x.png`
displays as `https://cdn.example/x.png`, and a storage path goes through
the public-URL lookup. -/
theorem c10_external_url_roundtrip_witness :
    displayedImageUrl (fun s => "https://pub/" ++ s)
      (storedExternalPath "https://cdn.example/x.png") =
      "https://cdn.example/x.png" ∧
    displayedImageUrl (fun s => "https://pub/" ++ s) "u1/c1/m1/logo.png" =
      "https://pub/u1/c1/m1/logo.png" :=
  ⟨(c10_external_url_roundtrip (fun s => "https://pub/" ++ s)
      "https://cdn.example/x.png" "u1/c1/m1/logo.png").1,
   (c10_external_url_roundtrip (fun s => "https://pub/" ++ s)
      "https://cdn.example/x.png" "u1/c1/m1/logo.png").2 rfl⟩

end Chatwave
